import Mathlib

/-!
Verification development for the resume-optimizer repository.

The embedding models the keyword-matching core and the application-record
store of the repository:

* `simple_optimizer.py` (`QuickResumeHelper`): keyword extraction,
  match scoring (`analyze_job_match`), suggestion generation.
* `automated_resume_optimizer.py` (`AutomatedResumeOptimizer`): the stricter
  keyword extractor, the same scorer with a tighter display truncation, and
  the 40/60-threshold suggestion generator (shared verbatim with
  `enhanced_optimizer.py`).
* `resume_optimizer.py`: `calculate_match_score` and `save_application`.
* `application_tracker.py` (`ApplicationTracker`): `_load_tracking_data`,
  `log_application`, `update_application_status`.

Modelling conventions:

* Text is `List Char` (`Str`); ASCII is modelled exactly.  Python's `str.lower`
  is modelled on the ASCII range (`lowerChar`); Python's `\w` (word character)
  is modelled as ASCII `[A-Za-z0-9_]`.  Non-ASCII letters, which Python treats
  as word characters, are treated as non-word characters here; every claim
  below is settled over this ASCII model.
* Python's float `round(x, 1)` applied to the compatibility score for display
  is not modelled; scores are exact rationals `100 * found / total`.  No claim
  settled here depends on the rounded decimal (band thresholds are only ever
  compared against scores that are exact in both models at the inputs used).
* Wall-clock reads (`datetime.now()` and its formattings) are passed in as
  explicit string parameters.
* File-system state for the record store is the abstract `StoreFile` value
  capturing exactly the distinctions the code makes: missing file, existing
  file with empty/whitespace content, existing unparseable content, valid JSON
  with a proper `"applications"` list, and valid JSON of any other shape.
-/

/-- Resume/job text and keywords: a string as a list of characters. -/
abbrev Str := List Char

/-- ASCII model of Python `str.lower` on one character. -/
def lowerChar (c : Char) : Char :=
  if 'A' ≤ c ∧ c ≤ 'Z' then Char.ofNat (c.toNat + 32) else c

/-- ASCII model of Python `str.lower`. -/
def lowerStr (s : Str) : Str := s.map lowerChar

/-- Does `p` occur at the very start of `s`?  (Helper for substring search.) -/
def subAt : Str → Str → Bool
  | [], _ => true
  | _ :: _, [] => false
  | c :: p, d :: s => (c == d) && subAt p s

/-- Python's substring test `p in s` (first argument is the haystack `s`). -/
def containsStr : Str → Str → Bool
  | [], p => p.isEmpty
  | c :: rest, p => subAt p (c :: rest) || containsStr rest p

/-- ASCII alphabetic character (`[A-Za-z]` in the extraction regexes). -/
def isAlphaChar (c : Char) : Bool :=
  ('a' ≤ c && c ≤ 'z') || ('A' ≤ c && c ≤ 'Z')

/-- ASCII digit. -/
def isDigitChar (c : Char) : Bool := '0' ≤ c && c ≤ '9'

/-- ASCII model of a regex word character `\w` (`[A-Za-z0-9_]`). -/
def isWordChar (c : Char) : Bool := isAlphaChar c || isDigitChar c || c == '_'

/-- Accumulator pass splitting text into maximal runs of word characters.
`cur` holds the current run reversed. -/
def runsAux : Str → Str → List Str
  | cur, [] => if cur = [] then [] else [cur.reverse]
  | cur, c :: s =>
    if isWordChar c then runsAux (c :: cur) s
    else if cur = [] then runsAux [] s else cur.reverse :: runsAux [] s

/-- The maximal word-character runs of a text, in order.  `re.findall` with the
pattern `\b[A-Za-z]{3,25}\b` returns exactly the runs that consist solely of
alphabetic characters and whose length lies in the bounds: a run containing a
digit or underscore, a run shorter than the lower bound, or a run longer than
the upper bound yields no match (there is no internal word boundary). -/
def wordRuns (s : Str) : List Str := runsAux [] s

/-- Distinct elements of a list in order of first occurrence, skipping those in
`seen`.  Models the key order of a Python `dict`/`Counter` (insertion order). -/
def firstSeenAux : List Str → List Str → List Str
  | _, [] => []
  | seen, w :: ws =>
    if w ∈ seen then firstSeenAux seen ws else w :: firstSeenAux (w :: seen) ws

/-- Distinct elements of a list in order of first occurrence. -/
def firstSeen (l : List Str) : List Str := firstSeenAux [] l

/-- Insert `x` into a count-descending list, after every element of strictly
larger count and also after every earlier-inserted element of equal count. -/
def insertDesc (cnt : Str → ℕ) (x : Str) : List Str → List Str
  | [] => [x]
  | y :: ys => if cnt x < cnt y then y :: insertDesc cnt x ys else x :: y :: ys

/-- Stable sort by descending count (insertion sort).  A stable sort is
determined uniquely by the sort key and the input order, so this computes the
same ordering as `Counter.most_common` (which is documented as
`sorted(items, key=count, reverse=True)`, a stable descending sort over the
counter's insertion-ordered items). -/
def sortDesc (cnt : Str → ℕ) : List Str → List Str
  | [] => []
  | x :: xs => insertDesc cnt x (sortDesc cnt xs)

/-- The result dictionary of `analyze_job_match` (both variants).
`compatibility_score` is kept as the exact rational
`(present / total) * 100`; the Python code additionally rounds it to one
decimal for display, which is not modelled. -/
structure MatchAnalysis where
  compatibility_score : ℚ
  present_keywords : List Str
  missing_keywords : List Str
  total_found : ℕ
  total_analyzed : ℕ
deriving DecidableEq

/-- The keywords of `job_keywords` found in the resume text, in reference
order: the loop of `analyze_job_match` appends `keyword` to
`present_keywords` exactly when `keyword.lower() in self.resume_text`. -/
def present_keywords_of (job_keywords : List Str) (resume_text : Str) : List Str :=
  job_keywords.filter (fun k => containsStr resume_text (lowerStr k))

/-- The keywords of `job_keywords` not found in the resume text, in reference
order (the complementary branch of the same loop). -/
def missing_keywords_of (job_keywords : List Str) (resume_text : Str) : List Str :=
  job_keywords.filter (fun k => !(containsStr resume_text (lowerStr k)))

/-- The `.ok` payload of `analyze_job_match` for a non-empty keyword list:
score `(present / total) * 100`, the two partitions truncated to `cap`
entries for display, and the untruncated counts.  `cap` is 15 in
`simple_optimizer.py` and 10 in `automated_resume_optimizer.py`. -/
def mk_match_analysis (cap : ℕ) (job_keywords : List Str) (resume_text : Str) :
    MatchAnalysis :=
  { compatibility_score :=
      ((present_keywords_of job_keywords resume_text).length : ℚ) /
        (job_keywords.length : ℚ) * 100
    present_keywords := (present_keywords_of job_keywords resume_text).take cap
    missing_keywords := (missing_keywords_of job_keywords resume_text).take cap
    total_found := (present_keywords_of job_keywords resume_text).length
    total_analyzed := job_keywords.length }

namespace QuickResumeHelper

/-- Stop-word set of `QuickResumeHelper.extract_keywords_from_text`
(`simple_optimizer.py` lines 35-43), transcribed as written (the Python set
literal contains repeated entries; membership is unaffected). -/
def stop_words : List Str :=
  (["the", "and", "or", "but", "in", "on", "at", "to", "for", "of", "with",
    "by", "is", "are", "was", "were", "be", "been", "have", "has", "had",
    "do", "does", "did", "will", "would", "could", "should", "may", "might",
    "must", "can", "this", "that", "these", "those", "i", "you", "he", "she",
    "we", "they", "not", "no", "from", "up", "out", "about", "into", "over",
    "after", "before", "during", "under", "above", "below", "between", "among",
    "an", "as", "been", "being", "has", "had", "have", "did", "does", "done"]
    : List String).map String.toList

/-- `re.findall(r'\b[A-Za-z]{3,25}\b', text.lower())`: the maximal
word-character runs of the lowered text that are fully alphabetic with length
in `[3, 25]`. -/
def words (text : Str) : List Str :=
  (wordRuns (lowerStr text)).filter
    (fun w => w.all isAlphaChar && decide (3 ≤ w.length) && decide (w.length ≤ 25))

/-- `filtered_words`: the extracted words with stop-words removed
(`simple_optimizer.py` line 49). -/
def filtered_words (text : Str) : List Str :=
  (words text).filter (fun w => decide (w ∉ stop_words))

/-- The full frequency ranking `Counter(filtered_words).most_common()`:
distinct words in first-occurrence order, stably sorted by descending count. -/
def ranked_keywords (text : Str) : List Str :=
  sortDesc (fun w => (filtered_words text).count w) (firstSeen (filtered_words text))

/-- `QuickResumeHelper.extract_keywords_from_text` (`simple_optimizer.py`
lines 33-53): the first 30 entries of the frequency ranking. -/
def extract_keywords_from_text (text : Str) : List Str :=
  (ranked_keywords text).take 30

/-- `QuickResumeHelper.analyze_job_match` (`simple_optimizer.py` lines 55-80).
An empty keyword list yields the error dictionary
`{"error": "No keywords found"}`; otherwise the match result with the display
partitions truncated to 15 entries each. -/
def analyze_job_match (job_keywords : List Str) (resume_text : Str) :
    Except String MatchAnalysis :=
  if job_keywords = [] then .error "No keywords found"
  else .ok (mk_match_analysis 15 job_keywords resume_text)

/-- Band message for `score < 50` (`simple_optimizer.py` line 94). -/
def major_improvement_msg : String :=
  "🔴 MAJOR IMPROVEMENT NEEDED - Consider rewriting key sections"

/-- Band message for `50 ≤ score < 75` (`simple_optimizer.py` line 96). -/
def good_add_missing_msg : String :=
  "🟡 GOOD - Add missing keywords to improve ATS score"

/-- Band message for `score ≥ 75` (`simple_optimizer.py` line 98). -/
def excellent_match_msg : String :=
  "🟢 EXCELLENT MATCH - Your resume is well-optimized!"

/-- The score-band message of `QuickResumeHelper.generate_suggestions`
(`simple_optimizer.py` lines 93-98): thresholds 50 and 75. -/
def score_band_msg (score : ℚ) : String :=
  if score < 50 then major_improvement_msg
  else if score < 75 then good_add_missing_msg
  else excellent_match_msg

/-- The security-related substring list of `simple_optimizer.py` line 106. -/
def security_terms : List Str :=
  (["security", "siem", "incident", "threat", "vulnerability", "detection"]
    : List String).map String.toList

/-- The result dictionary of `QuickResumeHelper.generate_suggestions`. -/
structure SuggestionResult where
  ats_score : ℚ
  suggestions : List String
  missing_keywords : List Str
  analysis : MatchAnalysis
deriving DecidableEq

/-- The non-error body of `QuickResumeHelper.generate_suggestions`
(`simple_optimizer.py` lines 89-115): the score-band message, then the
`ADD THESE KEYWORDS` message when any missing keywords exist, then the
`SECURITY FOCUS` message when any missing keyword contains one of the
security substrings. -/
def build_suggestion_result (analysis : MatchAnalysis) : SuggestionResult :=
  { ats_score := analysis.compatibility_score
    suggestions :=
      [score_band_msg analysis.compatibility_score]
      ++ (if analysis.missing_keywords ≠ [] then
            ["ADD THESE KEYWORDS: " ++
              String.intercalate ", " ((analysis.missing_keywords.take 8).map
                (fun w => String.mk w))]
          else [])
      ++ (if (analysis.missing_keywords.filter
                (fun k => security_terms.any
                  (fun sec => containsStr (lowerStr k) sec))) ≠ [] then
            ["SECURITY FOCUS: Add '" ++
              String.intercalate ", " (((analysis.missing_keywords.filter
                (fun k => security_terms.any
                  (fun sec => containsStr (lowerStr k) sec))).take 5).map
                (fun w => String.mk w)) ++ "'"]
          else [])
    missing_keywords := analysis.missing_keywords
    analysis := analysis }

/-- `QuickResumeHelper.generate_suggestions` (`simple_optimizer.py` lines
82-115): analyze, pass the error dictionary through, otherwise build the
suggestion report. -/
def generate_suggestions (job_keywords : List Str) (resume_text : Str) :
    Except String SuggestionResult :=
  match analyze_job_match job_keywords resume_text with
  | .error e => .error e
  | .ok analysis => .ok (build_suggestion_result analysis)

end QuickResumeHelper

namespace AutomatedResumeOptimizer

/-- Stop-word set of `AutomatedResumeOptimizer.extract_keywords_from_text`
(`automated_resume_optimizer.py` lines 103-110). -/
def stop_words : List Str :=
  (["the", "and", "or", "but", "in", "on", "at", "to", "for", "of", "with",
    "by", "is", "are", "was", "were", "be", "been", "have", "has", "had",
    "do", "does", "did", "will", "would", "could", "should", "may", "might",
    "must", "can", "this", "that", "these", "those", "i", "you", "he", "she",
    "we", "they", "not", "no", "from", "up", "out", "about", "into", "over",
    "after", "before", "during", "under", "above", "below", "between", "among"]
    : List String).map String.toList

/-- `re.findall(r'\b[A-Za-z]{3,20}\b', text.lower())` for the stricter
variant (`automated_resume_optimizer.py` line 112). -/
def words (text : Str) : List Str :=
  (wordRuns (lowerStr text)).filter
    (fun w => w.all isAlphaChar && decide (3 ≤ w.length) && decide (w.length ≤ 20))

/-- The extracted words with stop-words removed
(`automated_resume_optimizer.py` line 113). -/
def filtered_words (text : Str) : List Str :=
  (words text).filter (fun w => decide (w ∉ stop_words))

/-- The full frequency ranking `Counter(filtered_words).most_common()`. -/
def ranked_keywords (text : Str) : List Str :=
  sortDesc (fun w => (filtered_words text).count w) (firstSeen (filtered_words text))

/-- `AutomatedResumeOptimizer.extract_keywords_from_text`
(`automated_resume_optimizer.py` lines 101-115): the first 25 entries of the
frequency ranking. -/
def extract_keywords_from_text (text : Str) : List Str :=
  (ranked_keywords text).take 25

/-- `AutomatedResumeOptimizer.analyze_job_match`
(`automated_resume_optimizer.py` lines 117-139): as in the simple variant but
with the display partitions truncated to 10 entries each. -/
def analyze_job_match (job_keywords : List Str) (resume_text : Str) :
    Except String MatchAnalysis :=
  if job_keywords = [] then .error "No keywords found"
  else .ok (mk_match_analysis 10 job_keywords resume_text)

/-- Band message for `score < 40` (`automated_resume_optimizer.py` line 175,
identical in `enhanced_optimizer.py` line 60). -/
def urgent_msg : String :=
  "🔴 URGENT: Major keyword gap for cybersecurity positions"

/-- Band message for `40 ≤ score < 60` (`automated_resume_optimizer.py`
line 177, identical in `enhanced_optimizer.py` line 62). -/
def needs_work_msg : String :=
  "🟡 NEEDS WORK: Add cybersecurity keywords to key sections"

/-- Band message for `score ≥ 60` (`automated_resume_optimizer.py` line 179,
identical in `enhanced_optimizer.py` line 64). -/
def good_msg : String :=
  "🟢 GOOD: Strong cybersecurity keyword presence"

/-- Targeted suggestion for a missing `threat` keyword. -/
def threat_msg : String :=
  "Add 'threat detection' to your monitoring experience"

/-- Targeted suggestion for a missing `incident` or `response` keyword. -/
def incident_msg : String :=
  "Reframe 'ticket resolution' as 'incident response' - you have the 25% improvement metric!"

/-- Targeted suggestion for a missing `triage` keyword. -/
def triage_msg : String :=
  "Add 'alert triage' to your customer support roles"

/-- Targeted suggestion for a missing `investigation` keyword. -/
def investigation_msg : String :=
  "Use 'security investigations' instead of general troubleshooting"

/-- The keyword-specific suggestions appended after the band message
(`automated_resume_optimizer.py` lines 181-194, identical in
`enhanced_optimizer.py` lines 66-77). -/
def targeted_suggestions (missing : List Str) : List String :=
  (if "threat".toList ∈ missing then [threat_msg] else [])
  ++ (if "incident".toList ∈ missing ∨ "response".toList ∈ missing then
        [incident_msg] else [])
  ++ (if "triage".toList ∈ missing then [triage_msg] else [])
  ++ (if "investigation".toList ∈ missing then [investigation_msg] else [])

/-- The suggestion-building block of
`AutomatedResumeOptimizer.generate_actionable_suggestions`
(`automated_resume_optimizer.py` lines 170-194; the same block appears in
`ResumeOptimizer.generate_actionable_suggestions`, `enhanced_optimizer.py`
lines 56-77), as a function of the score and the missing list — the spec's
contract `suggest(score, missing)`.  The band message is appended first
(thresholds 40 and 60), then the targeted suggestions. -/
def generate_actionable_suggestions (score : ℚ) (missing : List Str) :
    List String :=
  (if score < 40 then [urgent_msg]
   else if score < 60 then [needs_work_msg]
   else [good_msg])
  ++ targeted_suggestions missing

end AutomatedResumeOptimizer

namespace resume_optimizer

/-- `calculate_match_score` (`resume_optimizer.py` lines 119-137).  The spaCy
tagger producing the candidate noun/proper-noun lemma list from the job
description is an external collaborator; the lemma list it yields is taken as
the `job_keywords` input.  The source then deduplicates it preserving first
occurrence (lines 127-128), returns `(0, [], [])` when it is empty (lines
130-131), and otherwise partitions by the raw substring test
`k in resume_text` against the lowered resume text (no `k.lower()` here) and
scores `matched / total * 100` (unrounded). -/
def calculate_match_score (resume_text : Str) (job_keywords : List Str) :
    ℚ × List Str × List Str :=
  let rt := lowerStr resume_text
  let jk := firstSeen job_keywords
  if jk = [] then (0, [], [])
  else
    ((((jk.filter (fun k => containsStr rt k)).length : ℚ) / (jk.length : ℚ)) * 100,
      jk.filter (fun k => containsStr rt k),
      jk.filter (fun k => !(containsStr rt k)))

end resume_optimizer

/-- A note appended by a status update (`application_tracker.py` lines 59-62). -/
structure AppNote where
  timestamp : String
  note : String
deriving DecidableEq

/-- One application record (`application_tracker.py` lines 31-42).  The Python
dictionary initially lacks the `last_updated` and `notes` keys; they are
modelled as `none` and `[]` respectively. -/
structure Application where
  id : String
  timestamp : String
  job_title : String
  company : String
  job_url : String
  ats_score : ℚ
  missing_keywords : List String
  resume_version : String
  status : String
  follow_up_date : Option String
  last_updated : Option String
  notes : List AppNote
deriving DecidableEq

/-- The state of the record-store file, capturing exactly the distinctions
made by the loading code: missing file; existing file whose content strips to
empty; existing non-empty content that is not valid JSON; valid JSON with a
top-level `"applications"` list; valid JSON of any other shape. -/
inductive StoreFile where
  | missing
  | emptyFile
  | malformed
  | wellFormed (apps : List Application)
  | wrongShape
deriving DecidableEq

/-- What `json.load` hands back on success: either a store-shaped object or
some other JSON value (the tracker does not validate the shape). -/
inductive LoadedData where
  | appsObj (apps : List Application)
  | otherJson
deriving DecidableEq

namespace ApplicationTracker

/-- `ApplicationTracker._load_tracking_data` (`application_tracker.py` lines
12-18).  Only `FileNotFoundError` is caught (returning the fresh store);
`json.load` on an empty or malformed file raises `json.JSONDecodeError`,
which propagates out of the method uncaught. -/
def load_tracking_data : StoreFile → Except String LoadedData
  | .missing => .ok (.appsObj [])
  | .emptyFile => .error "json.decoder.JSONDecodeError"
  | .malformed => .error "json.decoder.JSONDecodeError"
  | .wellFormed apps => .ok (.appsObj apps)
  | .wrongShape => .ok .otherJson

/-- `ApplicationTracker.log_application` (`application_tracker.py` lines
20-48).  `nowFmt` is the wall-clock read `datetime.now().strftime
('%Y%m%d_%H%M%S')` (second resolution) and `nowIso` the paired
`datetime.now().isoformat()`; the record id is `"app_" + nowFmt`.  Returns
the updated store and the id the method returns. -/
def log_application (apps : List Application) (job_title company job_url : String)
    (ats_score : ℚ) (missing_keywords : List String) (resume_version status : String)
    (nowFmt nowIso : String) : List Application × String :=
  let application_id := "app_" ++ nowFmt
  (apps ++ [{ id := application_id
              timestamp := nowIso
              job_title := job_title
              company := company
              job_url := job_url
              ats_score := ats_score
              missing_keywords := missing_keywords
              resume_version := resume_version
              status := status
              follow_up_date := none
              last_updated := none
              notes := [] }],
    application_id)

/-- `ApplicationTracker.update_application_status` (`application_tracker.py`
lines 50-67).  Walks the store; on the first record whose id matches it sets
the status, stamps `last_updated`, appends a note when `notes` is non-empty,
and returns (the Python method saves and prints a success line there).  When
no record matches, the store is untouched and a not-found line is printed.
The returned boolean is the found/not-found report. -/
def update_application_status :
    List Application → String → String → String → String →
      List Application × Bool
  | [], _, _, _, _ => ([], false)
  | app :: rest, application_id, new_status, notes, nowIso =>
    if app.id = application_id then
      ({ app with
          status := new_status
          last_updated := some nowIso
          notes := if notes ≠ "" then
              app.notes ++ [{ timestamp := nowIso, note := notes }]
            else app.notes } :: rest, true)
    else
      let r := update_application_status rest application_id new_status notes nowIso
      (app :: r.1, r.2)

end ApplicationTracker

namespace resume_optimizer

/-- The id `save_application` derives from the record's `timestamp` field
(`resume_optimizer.py` line 161): `"app_"` plus the timestamp with `-`, `:`
and `.` removed. -/
def mk_save_id (timestamp : String) : String :=
  "app_" ++ String.mk (timestamp.toList.filter
    (fun c => !((c == '-') || (c == ':') || (c == '.'))))

/-- `save_application` (`resume_optimizer.py` lines 140-171).  Every store
state is recovered to a usable list: a missing file, empty content, a JSON
decode failure, or a wrong-shaped object all restart from the fresh store,
and a well-formed store is kept; the new record (with its derived id) is then
appended and the result written out.  The function never propagates an
error. -/
def save_application (file : StoreFile) (app_data : Application) :
    List Application :=
  let apps : List Application :=
    match file with
    | .missing => []
    | .emptyFile => []
    | .malformed => []
    | .wrongShape => []
    | .wellFormed l => l
  apps ++ [{ app_data with id := mk_save_id app_data.timestamp }]

end resume_optimizer

/-- Field accessor on the scorer result: the present partition of the `.ok`
payload (empty for the error dictionary). -/
def presentOfResult : Except String MatchAnalysis → List Str
  | .ok r => r.present_keywords
  | .error _ => []

/-- Field accessor on the scorer result: the missing partition of the `.ok`
payload (empty for the error dictionary). -/
def missingOfResult : Except String MatchAnalysis → List Str
  | .ok r => r.missing_keywords
  | .error _ => []

/-- Field accessor on the scorer result: `total_found` (0 for the error
dictionary). -/
def foundOfResult : Except String MatchAnalysis → ℕ
  | .ok r => r.total_found
  | .error _ => 0

/-- Field accessor on the scorer result: `compatibility_score` (0 for the
error dictionary). -/
def scoreOfResult : Except String MatchAnalysis → ℚ
  | .ok r => r.compatibility_score
  | .error _ => 0

/-- The first suggestion of a `generate_suggestions` report, when any. -/
def firstSuggestion : Except String QuickResumeHelper.SuggestionResult → Option String
  | .ok r => r.suggestions.head?
  | .error _ => none

/-- Sixteen distinct keywords, for exercising the display truncation. -/
def kw16 : List Str :=
  (["aa", "ab", "ac", "ad", "ae", "af", "ag", "ah", "ai", "aj", "ak", "al",
    "am", "an", "ao", "ap"] : List String).map String.toList

/-- A resume text containing all sixteen keywords of `kw16`. -/
def doc16 : Str := "aa ab ac ad ae af ag ah ai aj ak al am an ao ap".toList

/-- Twenty distinct keywords, for exercising the score bands. -/
def kw20 : List Str :=
  (["ka", "kb", "kc", "kd", "ke", "kf", "kg", "kh", "ki", "kj", "kk", "kl",
    "km", "kn", "ko", "kp", "kq", "kr", "ks", "kt"] : List String).map String.toList

/-- A resume text containing exactly 9 of the keywords of `kw20`
(score `45`). -/
def doc9 : Str := "ka kb kc kd ke kf kg kh ki".toList

/-- A resume text containing exactly 11 of the keywords of `kw20`
(score `55`). -/
def doc11 : Str := "ka kb kc kd ke kf kg kh ki kj kk".toList

/-- The two-keyword list of the spec's worked scenario. -/
def kwS : List Str := (["siem", "analyst"] : List String).map String.toList

/-- A resume text containing `siem` but not `analyst`. -/
def docS : Str := "siem monitoring tools".toList

/-- First wall-clock reading of the back-to-back append scenario: both calls
fall in the same second. -/
def sameSecondFmt : String := "20240101_120000"

/-- First append of the back-to-back scenario, at `sameSecondFmt`. -/
def demo_store1 : List Application × String :=
  ApplicationTracker.log_application [] "Cybersecurity Analyst" "Tech Company"
    "https://example.com/job/123" 76 ["splunk"] "CV.pdf" "applied"
    sameSecondFmt "2024-01-01T12:00:00.100000"

/-- Second append of the back-to-back scenario, still at `sameSecondFmt`. -/
def demo_store2 : List Application × String :=
  ApplicationTracker.log_application demo_store1.1 "SOC Analyst" "Other Corp"
    "https://example.com/job/456" 55 ["siem"] "CV.pdf" "applied"
    sameSecondFmt "2024-01-01T12:00:00.900000"

/-- A one-record store for the status-update witness. -/
def demo_store_one : List Application :=
  [{ id := "app_20240101_120000"
     timestamp := "2024-01-01T12:00:00.100000"
     job_title := "Cybersecurity Analyst"
     company := "Tech Company"
     job_url := "https://example.com/job/123"
     ats_score := 76
     missing_keywords := ["splunk"]
     resume_version := "CV.pdf"
     status := "applied"
     follow_up_date := none
     last_updated := none
     notes := [] }]

/-- A job text for witnesses: the worked scenario of the spec. -/
def jobS : Str := "siem incident response triage analyst".toList

/-- The keyword `p` occurs at the start of `s` exactly when `s` extends `p`. -/
theorem subAt_iff (p : Str) : ∀ s : Str, (subAt p s = true ↔ ∃ u, s = p ++ u) := by
  induction p with
  | nil => intro s; simp [subAt]
  | cons c p ih =>
    intro s
    cases s with
    | nil => simp [subAt]
    | cons d s =>
      rw [subAt, Bool.and_eq_true, beq_iff_eq, ih s]
      constructor
      · rintro ⟨rfl, u, rfl⟩; exact ⟨u, rfl⟩
      · rintro ⟨u, h⟩
        rw [List.cons_append] at h
        injection h with h1 h2
        exact ⟨h1.symm, u, h2⟩

/-- `containsStr s p` is Python's `p in s`: some decomposition
`s = t ++ p ++ u` exists. -/
theorem containsStr_iff (p : Str) : ∀ s : Str,
    (containsStr s p = true ↔ ∃ t u, s = t ++ p ++ u) := by
  intro s
  induction s with
  | nil =>
    rw [containsStr]
    cases p with
    | nil => simp
    | cons c p => simp [List.isEmpty]
  | cons c s ih =>
    rw [containsStr, Bool.or_eq_true, ih, subAt_iff]
    constructor
    · rintro (⟨u, h⟩ | ⟨t, u, h⟩)
      · exact ⟨[], u, by simpa using h⟩
      · exact ⟨c :: t, u, by simp [h]⟩
    · rintro ⟨t, u, h⟩
      cases t with
      | nil => exact Or.inl ⟨u, by simpa using h⟩
      | cons a t =>
        rw [List.cons_append, List.cons_append] at h
        injection h with h1 h2
        exact Or.inr ⟨t, u, h2⟩

/-- A boolean filter and its negation partition the length of a list. -/
theorem length_filter_add_length_filter_not {α : Type} (l : List α) (p : α → Bool) :
    (l.filter p).length + (l.filter (fun x => !(p x))).length = l.length := by
  induction l with
  | nil => rfl
  | cons a l ih => cases h : p a <;> simp [List.filter_cons, h] <;> omega

/-- Membership in the first-seen pass: in the remaining input and not yet
seen. -/
theorem mem_firstSeenAux (x : Str) : ∀ (l seen : List Str),
    (x ∈ firstSeenAux seen l ↔ x ∈ l ∧ x ∉ seen) := by
  intro l
  induction l with
  | nil => intro seen; simp [firstSeenAux]
  | cons w ws ih =>
    intro seen
    by_cases hw : w ∈ seen
    · rw [firstSeenAux, if_pos hw, ih seen]
      constructor
      · rintro ⟨hx, hns⟩; exact ⟨List.mem_cons_of_mem _ hx, hns⟩
      · rintro ⟨hx, hns⟩
        rcases List.mem_cons.mp hx with rfl | hx
        · exact absurd hw hns
        · exact ⟨hx, hns⟩
    · rw [firstSeenAux, if_neg hw, List.mem_cons, ih (w :: seen)]
      constructor
      · rintro (rfl | ⟨hx, hns⟩)
        · exact ⟨List.mem_cons_self _ _, hw⟩
        · exact ⟨List.mem_cons_of_mem _ hx, fun hs => hns (List.mem_cons_of_mem _ hs)⟩
      · rintro ⟨hx, hns⟩
        rcases List.mem_cons.mp hx with rfl | hx
        · exact Or.inl rfl
        · by_cases hxw : x = w
          · exact Or.inl hxw
          · exact Or.inr ⟨hx, by simp [List.mem_cons, hxw, hns]⟩

/-- `firstSeen` keeps exactly the elements of its input. -/
theorem mem_firstSeen (x : Str) (l : List Str) : x ∈ firstSeen l ↔ x ∈ l := by
  rw [firstSeen, mem_firstSeenAux]
  simp

/-- The first-seen pass never repeats an element. -/
theorem nodup_firstSeenAux : ∀ (l seen : List Str), (firstSeenAux seen l).Nodup := by
  intro l
  induction l with
  | nil => intro seen; simp [firstSeenAux]
  | cons w ws ih =>
    intro seen
    by_cases hw : w ∈ seen
    · rw [firstSeenAux, if_pos hw]; exact ih seen
    · rw [firstSeenAux, if_neg hw]
      refine List.nodup_cons.mpr ⟨?_, ih (w :: seen)⟩
      rw [mem_firstSeenAux]
      rintro ⟨-, hns⟩
      exact hns (List.mem_cons_self _ _)

/-- `firstSeen` output has no duplicates. -/
theorem nodup_firstSeen (l : List Str) : (firstSeen l).Nodup :=
  nodup_firstSeenAux l []

/-- Insertion keeps exactly the inserted element plus the old ones. -/
theorem insertDesc_perm (cnt : Str → ℕ) (x : Str) :
    ∀ l : List Str, List.Perm (insertDesc cnt x l) (x :: l) := by
  intro l
  induction l with
  | nil => rfl
  | cons y ys ih =>
    rw [insertDesc]
    by_cases h : cnt x < cnt y
    · rw [if_pos h]
      exact (ih.cons y).trans (List.Perm.swap x y ys)
    · rw [if_neg h]

/-- The stable descending sort is a permutation of its input. -/
theorem sortDesc_perm (cnt : Str → ℕ) :
    ∀ l : List Str, List.Perm (sortDesc cnt l) l := by
  intro l
  induction l with
  | nil => rfl
  | cons x xs ih =>
    rw [sortDesc]
    exact (insertDesc_perm cnt x (sortDesc cnt xs)).trans (ih.cons x)

/-- Inserting into a sorted-with-tie-break list preserves the order, provided
the tie-break relation holds from the new element toward every equal-count
element already present. -/
theorem pairwise_insertDesc (cnt : Str → ℕ) (P : Str → Str → Prop) (x : Str) :
    ∀ l : List Str,
      l.Pairwise (fun a b => cnt b < cnt a ∨ (cnt a = cnt b ∧ P a b)) →
      (∀ y ∈ l, cnt x = cnt y → P x y) →
      (insertDesc cnt x l).Pairwise
        (fun a b => cnt b < cnt a ∨ (cnt a = cnt b ∧ P a b)) := by
  intro l
  induction l with
  | nil => intro _ _; simp [insertDesc]
  | cons y ys ih =>
    intro hl hx
    rcases List.pairwise_cons.mp hl with ⟨hy, hys⟩
    rw [insertDesc]
    by_cases h : cnt x < cnt y
    · rw [if_pos h]
      refine List.pairwise_cons.mpr
        ⟨?_, ih hys (fun z hz hc => hx z (List.mem_cons_of_mem _ hz) hc)⟩
      intro z hz
      rcases List.mem_cons.mp ((insertDesc_perm cnt x ys).mem_iff.mp hz) with rfl | hz'
      · exact Or.inl h
      · exact hy z hz'
    · rw [if_neg h]
      push_neg at h
      refine List.pairwise_cons.mpr ⟨?_, hl⟩
      intro z hz
      rcases List.mem_cons.mp hz with rfl | hz'
      · rcases lt_or_eq_of_le h with hlt | heq
        · exact Or.inl hlt
        · exact Or.inr ⟨heq.symm, hx z (List.mem_cons_self _ _) heq.symm⟩
      · rcases hy z hz' with hlt | ⟨heq, _⟩
        · exact Or.inl (lt_of_lt_of_le hlt h)
        · rcases lt_or_eq_of_le h with hlt2 | heq2
          · exact Or.inl (heq ▸ hlt2)
          · have hxz : cnt x = cnt z := heq2.symm.trans heq
            exact Or.inr ⟨hxz, hx z (List.mem_cons_of_mem _ hz') hxz⟩

/-- The stable descending sort of a sublist of `keys` is pairwise ordered by
descending count, with ties ordered as in `keys`. -/
theorem pairwise_sortDesc (cnt : Str → ℕ) (keys : List Str) :
    ∀ l : List Str, List.Sublist l keys →
      (sortDesc cnt l).Pairwise (fun a b =>
        cnt b < cnt a ∨ (cnt a = cnt b ∧ List.Sublist [a, b] keys)) := by
  intro l
  induction l with
  | nil => intro _; simp [sortDesc]
  | cons x xs ih =>
    intro h
    have hxs : List.Sublist xs keys := (List.sublist_cons_self x xs).trans h
    rw [sortDesc]
    refine pairwise_insertDesc cnt (fun a b => List.Sublist [a, b] keys) x
      (sortDesc cnt xs) (ih hxs) ?_
    intro y hy _
    have hymem : y ∈ xs := (sortDesc_perm cnt xs).mem_iff.mp hy
    exact (List.cons_sublist_cons.mpr (List.singleton_sublist.mpr hymem)).trans h

/-- Step inequality for the present-ratio: one more hit over one more keyword
cannot lower the ratio. -/
theorem ratio_step (m n : ℕ) (hmn : m ≤ n) (hn : 0 < n) :
    (m : ℚ) / (n : ℚ) ≤ ((m : ℚ) + 1) / ((n : ℚ) + 1) := by
  have hm : (m : ℚ) ≤ (n : ℚ) := by exact_mod_cast hmn
  have hn' : (0 : ℚ) < (n : ℚ) := by exact_mod_cast hn
  rw [div_le_div_iff₀ hn' (by linarith)]
  nlinarith

/-- The targeted suggestions never contain a band message. -/
theorem count_targeted_band (missing : List Str) :
    (AutomatedResumeOptimizer.targeted_suggestions missing).count
        AutomatedResumeOptimizer.urgent_msg = 0
    ∧ (AutomatedResumeOptimizer.targeted_suggestions missing).count
        AutomatedResumeOptimizer.needs_work_msg = 0
    ∧ (AutomatedResumeOptimizer.targeted_suggestions missing).count
        AutomatedResumeOptimizer.good_msg = 0 := by
  unfold AutomatedResumeOptimizer.targeted_suggestions
  refine ⟨?_, ?_, ?_⟩ <;> (split_ifs <;> decide)

/-- C1 (amended): `analyze_job_match` partitions the keyword list into the
present subsequence (reference order) and its complement, with
`present.length + missing.length = K.length`; the returned
`present_keywords`/`missing_keywords` fields expose the first 15 entries
(10 in the automated variant) of each partition, while `total_found` and
`total_analyzed` carry the untruncated counts. -/
theorem thm_match_partition : ∀ (K : List Str) (D : Str),
    (present_keywords_of K D).length + (missing_keywords_of K D).length = K.length
    ∧ List.Sublist (present_keywords_of K D) K
    ∧ List.Sublist (missing_keywords_of K D) K
    ∧ (∀ k ∈ present_keywords_of K D, containsStr D (lowerStr k) = true)
    ∧ (∀ k ∈ missing_keywords_of K D, containsStr D (lowerStr k) = false)
    ∧ (K ≠ [] →
        QuickResumeHelper.analyze_job_match K D = Except.ok (mk_match_analysis 15 K D)
        ∧ (mk_match_analysis 15 K D).present_keywords = (present_keywords_of K D).take 15
        ∧ (mk_match_analysis 15 K D).missing_keywords = (missing_keywords_of K D).take 15
        ∧ (mk_match_analysis 15 K D).total_found = (present_keywords_of K D).length
        ∧ (mk_match_analysis 15 K D).total_analyzed = K.length)
    ∧ (K ≠ [] →
        AutomatedResumeOptimizer.analyze_job_match K D = Except.ok (mk_match_analysis 10 K D)
        ∧ (mk_match_analysis 10 K D).present_keywords = (present_keywords_of K D).take 10
        ∧ (mk_match_analysis 10 K D).missing_keywords = (missing_keywords_of K D).take 10
        ∧ (mk_match_analysis 10 K D).total_found = (present_keywords_of K D).length
        ∧ (mk_match_analysis 10 K D).total_analyzed = K.length) := by
  intro K D
  refine ⟨length_filter_add_length_filter_not K _, List.filter_sublist K,
    List.filter_sublist K, ?_, ?_, ?_, ?_⟩
  · intro k hk
    exact (List.mem_filter.mp hk).2
  · intro k hk
    have := (List.mem_filter.mp hk).2
    simpa using this
  · intro hK
    refine ⟨?_, rfl, rfl, rfl, rfl⟩
    rw [QuickResumeHelper.analyze_job_match, if_neg hK]
  · intro hK
    refine ⟨?_, rfl, rfl, rfl, rfl⟩
    rw [AutomatedResumeOptimizer.analyze_job_match, if_neg hK]

/-- C1 counterexample: with 16 keywords all present in the resume text, the
returned `present_keywords` field holds only 15 entries and
`missing_keywords` is empty, so the lengths of the returned sequences sum to
15, not to the keyword count 16 (the untruncated count `total_found` is
16). -/
theorem cex_match_partition_truncated :
    kw16.length = 16
    ∧ (presentOfResult (QuickResumeHelper.analyze_job_match kw16 doc16)).length = 15
    ∧ missingOfResult (QuickResumeHelper.analyze_job_match kw16 doc16) = []
    ∧ foundOfResult (QuickResumeHelper.analyze_job_match kw16 doc16) = 16
    ∧ (presentOfResult (QuickResumeHelper.analyze_job_match kw16 doc16)).length
        + (missingOfResult (QuickResumeHelper.analyze_job_match kw16 doc16)).length
        ≠ kw16.length := by
  refine ⟨by decide, by decide, by decide, by decide, by decide⟩

/-- Witness for the amended C1 at the spec's two-keyword scenario. -/
theorem wit_match_partition :
    kwS ≠ []
    ∧ QuickResumeHelper.analyze_job_match kwS docS = Except.ok (mk_match_analysis 15 kwS docS)
    ∧ (mk_match_analysis 15 kwS docS).total_analyzed = kwS.length
    ∧ (present_keywords_of kwS docS).length + (missing_keywords_of kwS docS).length
        = kwS.length := by
  have h := thm_match_partition kwS docS
  have hne : kwS ≠ [] := by decide
  exact ⟨hne, (h.2.2.2.2.2.1 hne).1, (h.2.2.2.2.2.1 hne).2.2.2.2, h.1⟩

/-- C2 (confirmed): a reference keyword is classified present exactly when its
lower-cased text occurs as a contiguous substring of the (lower-cased) resume
text, and missing exactly otherwise — substring containment, not tokenized
word equality. -/
theorem thm_present_iff_substring (k : Str) (K : List Str) (raw : Str) (hk : k ∈ K) :
    (k ∈ present_keywords_of K (lowerStr raw) ↔
      ∃ t u, lowerStr raw = t ++ lowerStr k ++ u)
    ∧ (k ∈ missing_keywords_of K (lowerStr raw) ↔
      ¬ ∃ t u, lowerStr raw = t ++ lowerStr k ++ u) := by
  constructor
  · rw [present_keywords_of, List.mem_filter]
    constructor
    · rintro ⟨-, h⟩
      exact (containsStr_iff _ _).mp h
    · intro h
      exact ⟨hk, (containsStr_iff _ _).mpr h⟩
  · rw [missing_keywords_of, List.mem_filter]
    constructor
    · rintro ⟨-, h⟩ hex
      have := (containsStr_iff (lowerStr k) (lowerStr raw)).mpr hex
      rw [this] at h
      exact absurd h (by simp)
    · intro h
      refine ⟨hk, ?_⟩
      cases hc : containsStr (lowerStr raw) (lowerStr k) with
      | false => simp
      | true => exact absurd ((containsStr_iff _ _).mp hc) h

/-- Witness for C2: the keyword `log` counts as present in the resume text
`catalog` (substring hit inside another word), at the explicit decomposition
`cata ++ log ++ []`. -/
theorem wit_present_iff_substring :
    "log".toList ∈ (["log".toList] : List Str)
    ∧ "log".toList ∈ present_keywords_of ["log".toList] (lowerStr "catalog".toList) := by
  refine ⟨by decide, ?_⟩
  exact (thm_present_iff_substring "log".toList ["log".toList] "catalog".toList
    (by decide)).1.mpr ⟨"cata".toList, [], by decide⟩

/-- C3 counterexample: on an empty keyword list both `analyze_job_match`
variants return the error dictionary `{"error": "No keywords found"}`, not a
valid score-0 result with empty partitions. -/
theorem cex_empty_keywords_error :
    QuickResumeHelper.analyze_job_match [] [] = Except.error "No keywords found"
    ∧ AutomatedResumeOptimizer.analyze_job_match [] [] = Except.error "No keywords found" :=
  ⟨rfl, rfl⟩

/-- C3 (amended): on an empty keyword list the `analyze_job_match` scorers
return the error value `{"error": "No keywords found"}` (a reported value,
not a raised exception), while `calculate_match_score` in
`resume_optimizer.py` returns score 0 with empty matched and missing lists;
an empty job text yields an empty keyword list in both extractors. -/
theorem thm_empty_keywords_policy : ∀ D : Str,
    QuickResumeHelper.analyze_job_match [] D = Except.error "No keywords found"
    ∧ AutomatedResumeOptimizer.analyze_job_match [] D = Except.error "No keywords found"
    ∧ resume_optimizer.calculate_match_score D [] = (0, [], [])
    ∧ QuickResumeHelper.extract_keywords_from_text [] = []
    ∧ AutomatedResumeOptimizer.extract_keywords_from_text [] = [] :=
  fun _ => ⟨rfl, rfl, rfl, rfl, rfl⟩

/-- C4 (confirmed): each extractor returns the first 30 (resp. 25) entries of
the full frequency ranking; that ranking lists exactly the distinct filtered
tokens (fully alphabetic runs of the lowered text within the length bounds,
minus stop-words), has no duplicates, and is ordered by strictly descending
frequency with equal-frequency terms kept in first-encountered order (the
`List.Sublist [a, b] (firstSeen …)` clause).  Determinism is definitional:
the embedding is a pure function of the input text, and the Counter's
insertion order is modelled explicitly by `firstSeen`. -/
theorem thm_extract_keywords_ranking : ∀ text : Str,
    (QuickResumeHelper.extract_keywords_from_text text =
        (QuickResumeHelper.ranked_keywords text).take 30
      ∧ List.Perm (QuickResumeHelper.ranked_keywords text)
          (firstSeen (QuickResumeHelper.filtered_words text))
      ∧ (∀ w, w ∈ QuickResumeHelper.ranked_keywords text ↔
          w ∈ QuickResumeHelper.filtered_words text)
      ∧ (QuickResumeHelper.ranked_keywords text).Nodup
      ∧ (QuickResumeHelper.extract_keywords_from_text text).Nodup
      ∧ (∀ w ∈ QuickResumeHelper.extract_keywords_from_text text,
          w ∈ wordRuns (lowerStr text) ∧ w.all isAlphaChar = true
            ∧ 3 ≤ w.length ∧ w.length ≤ 25 ∧ w ∉ QuickResumeHelper.stop_words)
      ∧ (QuickResumeHelper.ranked_keywords text).Pairwise (fun a b =>
          (QuickResumeHelper.filtered_words text).count b <
              (QuickResumeHelper.filtered_words text).count a
            ∨ ((QuickResumeHelper.filtered_words text).count a =
                  (QuickResumeHelper.filtered_words text).count b
                ∧ List.Sublist [a, b]
                    (firstSeen (QuickResumeHelper.filtered_words text)))))
    ∧ (AutomatedResumeOptimizer.extract_keywords_from_text text =
        (AutomatedResumeOptimizer.ranked_keywords text).take 25
      ∧ List.Perm (AutomatedResumeOptimizer.ranked_keywords text)
          (firstSeen (AutomatedResumeOptimizer.filtered_words text))
      ∧ (∀ w, w ∈ AutomatedResumeOptimizer.ranked_keywords text ↔
          w ∈ AutomatedResumeOptimizer.filtered_words text)
      ∧ (AutomatedResumeOptimizer.ranked_keywords text).Nodup
      ∧ (AutomatedResumeOptimizer.extract_keywords_from_text text).Nodup
      ∧ (∀ w ∈ AutomatedResumeOptimizer.extract_keywords_from_text text,
          w ∈ wordRuns (lowerStr text) ∧ w.all isAlphaChar = true
            ∧ 3 ≤ w.length ∧ w.length ≤ 20 ∧ w ∉ AutomatedResumeOptimizer.stop_words)
      ∧ (AutomatedResumeOptimizer.ranked_keywords text).Pairwise (fun a b =>
          (AutomatedResumeOptimizer.filtered_words text).count b <
              (AutomatedResumeOptimizer.filtered_words text).count a
            ∨ ((AutomatedResumeOptimizer.filtered_words text).count a =
                  (AutomatedResumeOptimizer.filtered_words text).count b
                ∧ List.Sublist [a, b]
                    (firstSeen (AutomatedResumeOptimizer.filtered_words text))))) := by
  intro text
  constructor
  · have hperm : List.Perm (QuickResumeHelper.ranked_keywords text)
        (firstSeen (QuickResumeHelper.filtered_words text)) :=
      sortDesc_perm _ _
    have hnodup : (QuickResumeHelper.ranked_keywords text).Nodup :=
      hperm.nodup_iff.mpr (nodup_firstSeen _)
    refine ⟨rfl, hperm, ?_, hnodup, hnodup.sublist (List.take_sublist _ _), ?_, ?_⟩
    · intro w
      exact hperm.mem_iff.trans (mem_firstSeen w _)
    · intro w hw
      have hw1 : w ∈ QuickResumeHelper.ranked_keywords text :=
        List.take_subset _ _ hw
      have hw2 : w ∈ QuickResumeHelper.filtered_words text :=
        (hperm.mem_iff.trans (mem_firstSeen w _)).mp hw1
      rcases List.mem_filter.mp hw2 with ⟨hw3, hstop⟩
      rcases List.mem_filter.mp hw3 with ⟨hw4, hval⟩
      simp only [Bool.and_eq_true, decide_eq_true_eq] at hval
      exact ⟨hw4, hval.1.1, hval.1.2, hval.2, of_decide_eq_true hstop⟩
    · exact pairwise_sortDesc _ _ _ (List.Sublist.refl _)
  · have hperm : List.Perm (AutomatedResumeOptimizer.ranked_keywords text)
        (firstSeen (AutomatedResumeOptimizer.filtered_words text)) :=
      sortDesc_perm _ _
    have hnodup : (AutomatedResumeOptimizer.ranked_keywords text).Nodup :=
      hperm.nodup_iff.mpr (nodup_firstSeen _)
    refine ⟨rfl, hperm, ?_, hnodup, hnodup.sublist (List.take_sublist _ _), ?_, ?_⟩
    · intro w
      exact hperm.mem_iff.trans (mem_firstSeen w _)
    · intro w hw
      have hw1 : w ∈ AutomatedResumeOptimizer.ranked_keywords text :=
        List.take_subset _ _ hw
      have hw2 : w ∈ AutomatedResumeOptimizer.filtered_words text :=
        (hperm.mem_iff.trans (mem_firstSeen w _)).mp hw1
      rcases List.mem_filter.mp hw2 with ⟨hw3, hstop⟩
      rcases List.mem_filter.mp hw3 with ⟨hw4, hval⟩
      simp only [Bool.and_eq_true, decide_eq_true_eq] at hval
      exact ⟨hw4, hval.1.1, hval.1.2, hval.2, of_decide_eq_true hstop⟩
    · exact pairwise_sortDesc _ _ _ (List.Sublist.refl _)

/-- Witness for C4 at the spec's worked scenario text: `siem` is a filtered
token of the job text, so it appears in the full ranking. -/
theorem wit_extract_keywords_ranking :
    "siem".toList ∈ QuickResumeHelper.filtered_words jobS
    ∧ "siem".toList ∈ QuickResumeHelper.ranked_keywords jobS := by
  refine ⟨by decide, ?_⟩
  exact ((thm_extract_keywords_ranking jobS).1.2.2.1 "siem".toList).mpr (by decide)

/-- C5 (amended): the automated/enhanced suggestion generator appends exactly
one score-band message, chosen by the thresholds 40 and 60, as the first
element of its output; the simple variant (`QuickResumeHelper
.generate_suggestions`) also puts its single band message first but selects
it by the thresholds 50 and 75 instead. -/
theorem thm_suggestion_band : ∀ (score : ℚ) (missing : List Str),
    ((AutomatedResumeOptimizer.generate_actionable_suggestions score missing).head? =
        some (if score < 40 then AutomatedResumeOptimizer.urgent_msg
          else if score < 60 then AutomatedResumeOptimizer.needs_work_msg
          else AutomatedResumeOptimizer.good_msg)
      ∧ (AutomatedResumeOptimizer.generate_actionable_suggestions score missing).count
            AutomatedResumeOptimizer.urgent_msg
          + (AutomatedResumeOptimizer.generate_actionable_suggestions score missing).count
            AutomatedResumeOptimizer.needs_work_msg
          + (AutomatedResumeOptimizer.generate_actionable_suggestions score missing).count
            AutomatedResumeOptimizer.good_msg = 1)
    ∧ (∀ (K : List Str) (D : Str) (r : QuickResumeHelper.SuggestionResult),
        QuickResumeHelper.generate_suggestions K D = Except.ok r →
          r.suggestions.head? =
            some (if r.ats_score < 50 then QuickResumeHelper.major_improvement_msg
              else if r.ats_score < 75 then QuickResumeHelper.good_add_missing_msg
              else QuickResumeHelper.excellent_match_msg)) := by
  intro score missing
  constructor
  · have ht := count_targeted_band missing
    have hne1 : AutomatedResumeOptimizer.needs_work_msg ≠
        AutomatedResumeOptimizer.urgent_msg := by decide
    have hne2 : AutomatedResumeOptimizer.good_msg ≠
        AutomatedResumeOptimizer.urgent_msg := by decide
    have hne3 : AutomatedResumeOptimizer.urgent_msg ≠
        AutomatedResumeOptimizer.needs_work_msg := by decide
    have hne4 : AutomatedResumeOptimizer.good_msg ≠
        AutomatedResumeOptimizer.needs_work_msg := by decide
    have hne5 : AutomatedResumeOptimizer.urgent_msg ≠
        AutomatedResumeOptimizer.good_msg := by decide
    have hne6 : AutomatedResumeOptimizer.needs_work_msg ≠
        AutomatedResumeOptimizer.good_msg := by decide
    rw [AutomatedResumeOptimizer.generate_actionable_suggestions]
    by_cases h40 : score < 40
    · rw [if_pos h40, if_pos h40]
      refine ⟨rfl, ?_⟩
      simp [List.count_append, ht.1, ht.2.1, ht.2.2, List.count_cons_of_ne hne1,
        List.count_cons_of_ne hne2]
    · rw [if_neg h40, if_neg h40]
      by_cases h60 : score < 60
      · rw [if_pos h60, if_pos h60]
        refine ⟨rfl, ?_⟩
        simp [List.count_append, ht.1, ht.2.1, ht.2.2, List.count_cons_of_ne hne3,
          List.count_cons_of_ne hne4]
      · rw [if_neg h60, if_neg h60]
        refine ⟨rfl, ?_⟩
        simp [List.count_append, ht.1, ht.2.1, ht.2.2, List.count_cons_of_ne hne5,
          List.count_cons_of_ne hne6]
  · intro K D r h
    rw [QuickResumeHelper.generate_suggestions] at h
    cases hA : QuickResumeHelper.analyze_job_match K D with
    | error e => rw [hA] at h; exact absurd h (by simp)
    | ok a =>
      rw [hA] at h
      simp only [Except.ok.injEq] at h
      subst h
      rfl

/-- C5 counterexample: two inputs to the simple variant whose scores 45 and
55 lie in the same claimed band `[40, 60)`, yet the first suggestions differ
(the simple variant switches messages at 50, not inside the claimed band
structure): score 45 gets the red message and score 55 the yellow one. -/
theorem cex_suggestion_band_simple :
    scoreOfResult (QuickResumeHelper.analyze_job_match kw20 doc9) = 45
    ∧ scoreOfResult (QuickResumeHelper.analyze_job_match kw20 doc11) = 55
    ∧ ((40 : ℚ) ≤ 45 ∧ (45 : ℚ) < 60 ∧ (40 : ℚ) ≤ 55 ∧ (55 : ℚ) < 60)
    ∧ firstSuggestion (QuickResumeHelper.generate_suggestions kw20 doc9) =
        some QuickResumeHelper.major_improvement_msg
    ∧ firstSuggestion (QuickResumeHelper.generate_suggestions kw20 doc11) =
        some QuickResumeHelper.good_add_missing_msg
    ∧ QuickResumeHelper.major_improvement_msg ≠ QuickResumeHelper.good_add_missing_msg := by
  have hp9 : (present_keywords_of kw20 doc9).length = 9 := by decide
  have hp11 : (present_keywords_of kw20 doc11).length = 11 := by decide
  have hl : kw20.length = 20 := by decide
  have hs9 : (mk_match_analysis 15 kw20 doc9).compatibility_score = 45 := by
    rw [mk_match_analysis]
    rw [hp9, hl]
    norm_num
  have hs11 : (mk_match_analysis 15 kw20 doc11).compatibility_score = 55 := by
    rw [mk_match_analysis]
    rw [hp11, hl]
    norm_num
  refine ⟨?_, ?_, by norm_num, ?_, ?_, by decide⟩
  · show (mk_match_analysis 15 kw20 doc9).compatibility_score = 45
    exact hs9
  · show (mk_match_analysis 15 kw20 doc11).compatibility_score = 55
    exact hs11
  · show some (QuickResumeHelper.score_band_msg
        (mk_match_analysis 15 kw20 doc9).compatibility_score) = _
    rw [hs9, QuickResumeHelper.score_band_msg, if_pos (by norm_num : (45 : ℚ) < 50)]
  · show some (QuickResumeHelper.score_band_msg
        (mk_match_analysis 15 kw20 doc11).compatibility_score) = _
    rw [hs11, QuickResumeHelper.score_band_msg,
      if_neg (by norm_num : ¬ (55 : ℚ) < 50), if_pos (by norm_num : (55 : ℚ) < 75)]

/-- Witness for the amended C5: the simple variant's report at the two-keyword
scenario has its band message (selected at thresholds 50/75) first. -/
theorem wit_suggestion_band :
    QuickResumeHelper.generate_suggestions kwS docS =
        Except.ok (QuickResumeHelper.build_suggestion_result (mk_match_analysis 15 kwS docS))
    ∧ (QuickResumeHelper.build_suggestion_result
          (mk_match_analysis 15 kwS docS)).suggestions.head? =
        some (if (QuickResumeHelper.build_suggestion_result
              (mk_match_analysis 15 kwS docS)).ats_score < 50
          then QuickResumeHelper.major_improvement_msg
          else if (QuickResumeHelper.build_suggestion_result
              (mk_match_analysis 15 kwS docS)).ats_score < 75
          then QuickResumeHelper.good_add_missing_msg
          else QuickResumeHelper.excellent_match_msg) :=
  ⟨rfl, (thm_suggestion_band 0 []).2 kwS docS _ rfl⟩

/-- C6 (confirmed): appending to the keyword list a term that is present in
the document does not decrease the present-ratio, and accordingly does not
decrease the compatibility score computed by either `analyze_job_match`
variant. -/
theorem thm_score_monotone (K : List Str) (D : Str) (t : Str)
    (hK : K ≠ []) (ht : containsStr D (lowerStr t) = true) :
    ((present_keywords_of K D).length : ℚ) / (K.length : ℚ) ≤
        ((present_keywords_of (K ++ [t]) D).length : ℚ) / (((K ++ [t]).length : ℚ))
    ∧ QuickResumeHelper.analyze_job_match K D = Except.ok (mk_match_analysis 15 K D)
    ∧ QuickResumeHelper.analyze_job_match (K ++ [t]) D =
        Except.ok (mk_match_analysis 15 (K ++ [t]) D)
    ∧ (mk_match_analysis 15 K D).compatibility_score ≤
        (mk_match_analysis 15 (K ++ [t]) D).compatibility_score
    ∧ AutomatedResumeOptimizer.analyze_job_match K D = Except.ok (mk_match_analysis 10 K D)
    ∧ AutomatedResumeOptimizer.analyze_job_match (K ++ [t]) D =
        Except.ok (mk_match_analysis 10 (K ++ [t]) D)
    ∧ (mk_match_analysis 10 K D).compatibility_score ≤
        (mk_match_analysis 10 (K ++ [t]) D).compatibility_score := by
  have hKt : K ++ [t] ≠ [] := by simp
  have hpres : present_keywords_of (K ++ [t]) D = present_keywords_of K D ++ [t] := by
    rw [present_keywords_of, present_keywords_of, List.filter_append]
    congr 1
    simp [List.filter_cons, ht]
  have hm : (present_keywords_of K D).length ≤ K.length := List.length_filter_le _ _
  have hn : 0 < K.length := List.length_pos.mpr hK
  have hratio : ((present_keywords_of K D).length : ℚ) / (K.length : ℚ) ≤
      ((present_keywords_of (K ++ [t]) D).length : ℚ) / (((K ++ [t]).length : ℚ)) := by
    rw [hpres, List.length_append, List.length_append]
    push_cast
    simpa using ratio_step (present_keywords_of K D).length K.length hm hn
  have hscore : ∀ cap : ℕ, (mk_match_analysis cap K D).compatibility_score ≤
      (mk_match_analysis cap (K ++ [t]) D).compatibility_score := by
    intro cap
    rw [mk_match_analysis, mk_match_analysis]
    exact mul_le_mul_of_nonneg_right hratio (by norm_num)
  refine ⟨hratio, ?_, ?_, hscore 15, ?_, ?_, hscore 10⟩
  · rw [QuickResumeHelper.analyze_job_match, if_neg hK]
  · rw [QuickResumeHelper.analyze_job_match, if_neg hKt]
  · rw [AutomatedResumeOptimizer.analyze_job_match, if_neg hK]
  · rw [AutomatedResumeOptimizer.analyze_job_match, if_neg hKt]

/-- Witness for C6: adding the keyword `tools`, present in the sample resume
text, to the two-keyword list. -/
theorem wit_score_monotone :
    kwS ≠ []
    ∧ containsStr docS (lowerStr "tools".toList) = true
    ∧ ((present_keywords_of kwS docS).length : ℚ) / ((kwS.length : ℚ)) ≤
        ((present_keywords_of (kwS ++ ["tools".toList]) docS).length : ℚ) /
          (((kwS ++ ["tools".toList]).length : ℚ)) :=
  ⟨by decide, by decide,
    (thm_score_monotone kwS docS "tools".toList (by decide) (by decide)).1⟩

/-- C7 (confirmed): a status update naming an id that matches no stored
record leaves the store exactly as it was (same records, same contents, same
count) and reports not-found. -/
theorem thm_update_status_not_found (apps : List Application)
    (application_id new_status notes nowIso : String)
    (h : ∀ a ∈ apps, a.id ≠ application_id) :
    ApplicationTracker.update_application_status apps application_id new_status notes nowIso
      = (apps, false) := by
  induction apps with
  | nil => rfl
  | cons a rest ih =>
    rw [ApplicationTracker.update_application_status,
      if_neg (h a (List.mem_cons_self a rest)),
      ih (fun b hb => h b (List.mem_cons_of_mem a hb))]

/-- Witness for C7: updating an unknown id on a one-record store. -/
theorem wit_update_status_not_found :
    (∀ a ∈ demo_store_one, a.id ≠ "app_unknown")
    ∧ ApplicationTracker.update_application_status demo_store_one "app_unknown"
        "interview" "" "2024-01-02T09:00:00" = (demo_store_one, false) :=
  ⟨by decide,
    thm_update_status_not_found demo_store_one "app_unknown" "interview" ""
      "2024-01-02T09:00:00" (by decide)⟩

/-- C8 (code bug, evaluated at the failing input): two back-to-back
`log_application` calls within the same wall-clock second (both `strftime`
readings are `20240101_120000`) append two records, preserve the first record
unmodified, but assign both records the identical id
`app_20240101_120000` — the claimed id distinctness fails because the id
is derived from a second-resolution timestamp. -/
theorem thm_log_application_id_collision :
    demo_store1.2 = "app_" ++ sameSecondFmt
    ∧ demo_store2.2 = "app_" ++ sameSecondFmt
    ∧ demo_store1.2 = demo_store2.2
    ∧ demo_store2.1.length = 2
    ∧ demo_store2.1.map (fun a => a.id) = ["app_20240101_120000", "app_20240101_120000"]
    ∧ demo_store2.1.head? = demo_store1.1.head? :=
  ⟨rfl, rfl, rfl, rfl, by decide, rfl⟩

/-- C9 counterexample: `ApplicationTracker._load_tracking_data` catches only
`FileNotFoundError`; on an existing but empty or malformed store file the
`json.load` decode error propagates instead of the store being treated as
empty. -/
theorem cex_store_recovery_tracker :
    ApplicationTracker.load_tracking_data StoreFile.emptyFile =
        Except.error "json.decoder.JSONDecodeError"
    ∧ ApplicationTracker.load_tracking_data StoreFile.malformed =
        Except.error "json.decoder.JSONDecodeError"
    ∧ ApplicationTracker.load_tracking_data StoreFile.missing =
        Except.ok (LoadedData.appsObj []) :=
  ⟨rfl, rfl, rfl⟩

/-- C9 (amended): `save_application` in `resume_optimizer.py` recovers from a
missing, empty, malformed, or wrong-shaped store by starting from the fresh
empty store and appending against it, and keeps a well-formed store; the
tracker's `_load_tracking_data` recovers only from a missing file and
propagates a JSON decode error when the existing file is empty or
malformed. -/
theorem thm_store_recovery : ∀ d : Application,
    resume_optimizer.save_application StoreFile.missing d =
        [{ d with id := resume_optimizer.mk_save_id d.timestamp }]
    ∧ resume_optimizer.save_application StoreFile.emptyFile d =
        [{ d with id := resume_optimizer.mk_save_id d.timestamp }]
    ∧ resume_optimizer.save_application StoreFile.malformed d =
        [{ d with id := resume_optimizer.mk_save_id d.timestamp }]
    ∧ resume_optimizer.save_application StoreFile.wrongShape d =
        [{ d with id := resume_optimizer.mk_save_id d.timestamp }]
    ∧ (∀ l, resume_optimizer.save_application (StoreFile.wellFormed l) d =
        l ++ [{ d with id := resume_optimizer.mk_save_id d.timestamp }])
    ∧ ApplicationTracker.load_tracking_data StoreFile.missing =
        Except.ok (LoadedData.appsObj [])
    ∧ ApplicationTracker.load_tracking_data StoreFile.emptyFile =
        Except.error "json.decoder.JSONDecodeError"
    ∧ ApplicationTracker.load_tracking_data StoreFile.malformed =
        Except.error "json.decoder.JSONDecodeError" :=
  fun _ => ⟨rfl, rfl, rfl, rfl, fun _ => rfl, rfl, rfl, rfl⟩

/-- C10 (confirmed): for a non-empty keyword list the result dictionary
truncates `present_keywords` and `missing_keywords` to at most 15 entries
each (10 in the automated variant), while `total_found` is the untruncated
present count and `total_analyzed` the keyword-list length, with
`total_found ≤ total_analyzed`. -/
theorem thm_result_truncation_totals (K : List Str) (D : Str) (hK : K ≠ []) :
    (QuickResumeHelper.analyze_job_match K D = Except.ok (mk_match_analysis 15 K D)
      ∧ (mk_match_analysis 15 K D).present_keywords.length ≤ 15
      ∧ (mk_match_analysis 15 K D).missing_keywords.length ≤ 15
      ∧ (mk_match_analysis 15 K D).total_found = (present_keywords_of K D).length
      ∧ (mk_match_analysis 15 K D).total_analyzed = K.length
      ∧ (mk_match_analysis 15 K D).total_found ≤ (mk_match_analysis 15 K D).total_analyzed)
    ∧ (AutomatedResumeOptimizer.analyze_job_match K D = Except.ok (mk_match_analysis 10 K D)
      ∧ (mk_match_analysis 10 K D).present_keywords.length ≤ 10
      ∧ (mk_match_analysis 10 K D).missing_keywords.length ≤ 10
      ∧ (mk_match_analysis 10 K D).total_found = (present_keywords_of K D).length
      ∧ (mk_match_analysis 10 K D).total_analyzed = K.length
      ∧ (mk_match_analysis 10 K D).total_found ≤
          (mk_match_analysis 10 K D).total_analyzed) := by
  constructor
  · refine ⟨?_, ?_, ?_, rfl, rfl, List.length_filter_le _ _⟩
    · rw [QuickResumeHelper.analyze_job_match, if_neg hK]
    · exact (List.length_take_le _ _)
    · exact (List.length_take_le _ _)
  · refine ⟨?_, ?_, ?_, rfl, rfl, List.length_filter_le _ _⟩
    · rw [AutomatedResumeOptimizer.analyze_job_match, if_neg hK]
    · exact (List.length_take_le _ _)
    · exact (List.length_take_le _ _)

/-- Witness for C10 at the spec's two-keyword scenario. -/
theorem wit_result_truncation_totals :
    kwS ≠ []
    ∧ (mk_match_analysis 15 kwS docS).present_keywords.length ≤ 15
    ∧ (mk_match_analysis 15 kwS docS).total_found ≤
        (mk_match_analysis 15 kwS docS).total_analyzed
    ∧ (mk_match_analysis 10 kwS docS).total_analyzed = kwS.length := by
  have h := thm_result_truncation_totals kwS docS (by decide)
  exact ⟨by decide, h.1.2.1, h.1.2.2.2.2.2, h.2.2.2.2.2.1⟩
